import Mathlib

/-!
Verification of the constant-folding engine for builtin calls
(gcc/fold-const-call.cc).  The development shallowly embeds the data
model (real values, formats, numeric-safety flags), the arbitrary-precision
bridge and its exactness gate, the per-function special-value handlers, and
the dispatch switches, and proves the specified properties about them.

Helpers that live in the surrounding compiler (real.cc, wide-int.cc, the
MPFR/MPC backend) are either taken as function parameters of the embedded
code, or modelled from the spec where a property depends on their semantics;
each such model is marked in its doc comment.
-/

set_option maxHeartbeats 1000000

namespace FoldConstCall

/-- Value classes of the compiler's internal real representation
(rvc_zero / rvc_normal / rvc_inf / rvc_nan). -/
inductive RClass
  | zero
  | normal
  | inf
  | nan
deriving DecidableEq

/-- Shallow embedding of REAL_VALUE_TYPE.  A normal number is stored as a
sign plus the exact positive rational magnitude denoted by its normalized
significand and exponent (`val`); `signaling` and `payload` model the
signalling bit and the NaN significand bits, meaningful for NaNs only. -/
structure RealValue where
  cl : RClass
  sign : Bool
  signaling : Bool
  payload : Nat
  val : ℚ
deriving DecidableEq

/-- dconst0: positive zero. -/
def dconst0 : RealValue := ⟨RClass.zero, false, false, 0, 0⟩

/-- dconst1: the real constant 1. -/
def dconst1 : RealValue := ⟨RClass.normal, false, false, 0, 1⟩

/-- dconstm1: the real constant -1. -/
def dconstm1 : RealValue := ⟨RClass.normal, true, false, 0, 1⟩

/-- dconstinf: +Inf. -/
def dconstinf : RealValue := ⟨RClass.inf, false, false, 0, 0⟩

/-- real_isfinite: neither NaN nor infinity. -/
def real_isfinite (a : RealValue) : Bool :=
  match a.cl with
  | RClass.nan => false
  | RClass.inf => false
  | _ => true

/-- real_isinf. -/
def real_isinf (a : RealValue) : Bool :=
  match a.cl with
  | RClass.inf => true
  | _ => false

/-- real_isnan. -/
def real_isnan (a : RealValue) : Bool :=
  match a.cl with
  | RClass.nan => true
  | _ => false

/-- real_isneg: the sign bit. -/
def real_isneg (a : RealValue) : Bool := a.sign

/-- REAL_VALUE_ISSIGNALING_NAN. -/
def real_issignaling_nan (a : RealValue) : Bool :=
  match a.cl with
  | RClass.nan => a.signaling
  | _ => false

/-- real_identical: bit-for-bit identity of two internal real values.  It
compares class and sign, then for normals the denoted magnitude (exponent
plus significand), and for NaNs the signalling bit and payload; the junk
fields of zeros and infinities are ignored, as in the source. -/
def real_identical (a b : RealValue) : Bool :=
  decide (a.cl = b.cl) && decide (a.sign = b.sign) &&
    match a.cl with
    | RClass.zero => true
    | RClass.inf => true
    | RClass.normal => decide (a.val = b.val)
    | RClass.nan => decide (a.signaling = b.signaling) && decide (a.payload = b.payload)

/-- The signed rational denoted by a finite real value (zeros of both signs
denote 0). -/
def sval (a : RealValue) : ℚ :=
  match a.cl with
  | RClass.normal => if a.sign then -a.val else a.val
  | _ => 0

/-- Modelled from the spec: do_compare from the surrounding compiler's
real-value library (out of scope per the spec, §1/§6), which orders two
real values with -1/0/1 and returns NAN_RESULT when either operand is a
NaN; infinities compare by sign, zeros of both signs are equal, and finite
values compare by their denoted rationals. -/
def do_compare_core (a b : RealValue) : Int :=
  if a.cl = RClass.inf then
    if b.cl = RClass.inf then
      if a.sign = b.sign then 0 else if a.sign then -1 else 1
    else if a.sign then -1 else 1
  else if b.cl = RClass.inf then
    if b.sign then 1 else -1
  else if sval a < sval b then -1
  else if sval b < sval a then 1
  else 0

/-- do_compare with the NaN result folded in (see do_compare_core for the
ordered part). -/
def do_compare (a b : RealValue) (nan_result : Int) : Int :=
  if a.cl = RClass.nan ∨ b.cl = RClass.nan then nan_result
  else do_compare_core a b

/-- Comparison codes used by real_compare at the call sites in the folder. -/
inductive CmpCode
  | lt
  | le
  | gt
  | ge
  | eq
deriving DecidableEq

/-- Modelled from the spec: real_compare, mapping a comparison code to a
do_compare call with the NaN result the surrounding compiler uses (1 for
LT/LE, -1 for GT/GE/EQ), so every ordered comparison involving a NaN is
false. -/
def real_compare (code : CmpCode) (a b : RealValue) : Bool :=
  match code with
  | CmpCode.lt => decide (do_compare a b 1 < 0)
  | CmpCode.le => decide (do_compare a b 1 ≤ 0)
  | CmpCode.gt => decide (0 < do_compare a b (-1))
  | CmpCode.ge => decide (0 ≤ do_compare a b (-1))
  | CmpCode.eq => decide (do_compare a b (-1) = 0)

/-- real_equal: equality via do_compare (false when either side is NaN). -/
def real_equal (a b : RealValue) : Bool := real_compare CmpCode.eq a b

/-- The numeric-safety flags read by the folder: flag_trapping_math,
flag_rounding_math, flag_errno_math, flag_signaling_nans, and
flag_unsafe_math_optimizations (named fastmath here). -/
structure NumericSafetyFlags where
  trapping_math : Bool
  rounding_math : Bool
  errno_math : Bool
  signaling_nans : Bool
  fastmath : Bool
deriving DecidableEq

/-- The fields of struct real_format consulted by the folder: radix,
precision, NaN precision, exponent bounds and capability flags. -/
structure real_format where
  b : Nat
  p : Nat
  pnan : Nat
  emin : Int
  emax : Int
  round_towards_zero : Bool
  has_inf : Bool
  has_denorm : Bool
deriving DecidableEq

/-- What the exactness gate observes of one MPFR working-precision value:
mpfr_number_p, mpfr_zero_p, and the result of real_from_mpfr at the target
format (the conversion to REAL_VALUE_TYPE with round-to-nearest). -/
structure MpfrPart where
  isNumber : Bool
  isZero : Bool
  toReal : RealValue
deriving DecidableEq

/-- The outcome of one backend call made with cleared MPFR flags: the
resulting working-precision value plus the overflow/underflow flags and the
inexactness report. -/
structure MpfrCall where
  part : MpfrPart
  overflow : Bool
  underflow : Bool
  inexact : Bool
deriving DecidableEq

/-- The outcome of one MPC (complex) backend call: one working-precision
value per component, with shared flag state and inexactness report. -/
structure MpcCall where
  re : MpfrPart
  im : MpfrPart
  overflow : Bool
  underflow : Bool
  inexact : Bool
deriving DecidableEq

/-- do_mpfr_ckconv: the exactness gate.  M (bundled in C) is the result of
constant folding started with clear MPFR flags; proceed iff M is a number
with no overflow/underflow raised (and exact under -frounding-math), the
conversion to the target format is finite and agrees with M on zero-ness,
and re-rounding the converted value reproduces it identically.
REAL_CONVERT stands for real_convert at the format. -/
def do_mpfr_ckconv (real_convert : real_format → RealValue → RealValue)
    (fmt : real_format) (c : MpfrCall) (rounding_math : Bool) : Option RealValue :=
  if c.part.isNumber = false ∨ c.overflow = true ∨ c.underflow = true
      ∨ (rounding_math = true ∧ c.inexact = true) then none
  else if real_isfinite c.part.toReal = false
      ∨ ¬((c.part.toReal.cl = RClass.zero) ↔ c.part.isZero = true) then none
  else if real_identical (real_convert fmt c.part.toReal) c.part.toReal then
    some (real_convert fmt c.part.toReal)
  else none

/-- do_mpc_ckconv: the exactness gate for complex results, applying the
finiteness, zero-mismatch and round-trip checks to each component. -/
def do_mpc_ckconv (real_convert : real_format → RealValue → RealValue)
    (fmt : real_format) (c : MpcCall) (rounding_math : Bool) :
    Option (RealValue × RealValue) :=
  if c.re.isNumber = false ∨ c.im.isNumber = false ∨ c.overflow = true
      ∨ c.underflow = true ∨ (rounding_math = true ∧ c.inexact = true) then none
  else if real_isfinite c.re.toReal = false ∨ real_isfinite c.im.toReal = false
      ∨ ¬((c.re.toReal.cl = RClass.zero) ↔ c.re.isZero = true)
      ∨ ¬((c.im.toReal.cl = RClass.zero) ↔ c.im.isZero = true) then none
  else if real_identical (real_convert fmt c.re.toReal) c.re.toReal
      && real_identical (real_convert fmt c.im.toReal) c.im.toReal then
    some (real_convert fmt c.re.toReal, real_convert fmt c.im.toReal)
  else none

/-- do_mpfr_arg1: reject formats whose radix is not 2 and non-finite
arguments, then run the backend function FUNC with cleared flags and apply
the exactness gate.  FUNC abstracts the MPFR implementation evaluated at
the format's precision and rounding mode. -/
def do_mpfr_arg1 (real_convert : real_format → RealValue → RealValue)
    (func : RealValue → MpfrCall) (arg : RealValue) (fmt : real_format)
    (rounding_math : Bool) : Option RealValue :=
  if fmt.b ≠ 2 ∨ real_isfinite arg = false then none
  else do_mpfr_ckconv real_convert fmt (func arg) rounding_math

/-- do_mpfr_arg2 (real, real): same preconditions over both arguments. -/
def do_mpfr_arg2 (real_convert : real_format → RealValue → RealValue)
    (func : RealValue → RealValue → MpfrCall) (arg0 arg1 : RealValue)
    (fmt : real_format) (rounding_math : Bool) : Option RealValue :=
  if fmt.b ≠ 2 ∨ real_isfinite arg0 = false ∨ real_isfinite arg1 = false then none
  else do_mpfr_ckconv real_convert fmt (func arg0 arg1) rounding_math

/-- do_mpfr_arg2 (integer, real): the variant taking a shifted-in integer
first operand (used by jn/yn). -/
def do_mpfr_arg2_iw (real_convert : real_format → RealValue → RealValue)
    (func : Int → RealValue → MpfrCall) (arg0 : Int) (arg1 : RealValue)
    (fmt : real_format) (rounding_math : Bool) : Option RealValue :=
  if fmt.b ≠ 2 ∨ real_isfinite arg1 = false then none
  else do_mpfr_ckconv real_convert fmt (func arg0 arg1) rounding_math

/-- Power of two as a rational, for exponent arithmetic. -/
def qpow2 (e : Int) : ℚ :=
  if 0 ≤ e then ((2 ^ e.toNat : ℕ) : ℚ) else 1 / ((2 ^ (-e).toNat : ℕ) : ℚ)

/-- The binary exponent of a positive rational: the e with
2^(e-1) ≤ q < 2^e, matching REAL_EXP on a normalized significand in
[0.5, 1). -/
def real_exp_q (q : ℚ) : Int :=
  let d : Int := (Nat.log2 q.num.natAbs : Int) - (Nat.log2 q.den : Int)
  if q < qpow2 d then d else d + 1

/-- Modelled from the spec: real_from_integer (VOIDmode, SIGNED) from the
surrounding compiler's real-value library: the exact internal real value of
an integer (every HOST_WIDE_INT fits the internal significand exactly). -/
def rv_of_int (n : Int) : RealValue :=
  if n = 0 then dconst0
  else ⟨RClass.normal, decide (n < 0), false, 0, ((n.natAbs : ℕ) : ℚ)⟩

/-- Modelled from the spec: real_to_integer from the surrounding compiler's
real-value library: truncation toward zero, saturating at the
HOST_WIDE_INT bounds, with zero for NaN per the internal convention that
only the finite case is relied upon by callers checking round-trip
integrality. -/
def real_to_integer_q (a : RealValue) : Int :=
  match a.cl with
  | RClass.zero => 0
  | RClass.normal =>
    let t : Int := ⌊a.val⌋
    let s : Int := if a.sign then -t else t
    if s < -(2 ^ 63) then -(2 ^ 63) else if 2 ^ 63 - 1 < s then 2 ^ 63 - 1 else s
  | RClass.inf => if a.sign then -(2 ^ 63) else 2 ^ 63 - 1
  | RClass.nan => if a.sign then -(2 ^ 63) else 2 ^ 63 - 1

/-- fold_const_logb: NaN is returned unchanged, +-Inf yields +Inf, zero
fails (it may set errno / raise an exception), and a normal number yields
its binary exponent minus one as an exact integer-valued real, for radix-2
formats only. -/
def fold_const_logb (arg : RealValue) (fmt : real_format) : Option RealValue :=
  match arg.cl with
  | RClass.nan => some arg
  | RClass.inf => some { arg with sign := false }
  | RClass.zero => none
  | RClass.normal =>
    if fmt.b = 2 then some (rv_of_int (real_exp_q arg.val - 1)) else none

/-- fold_const_significand: +-0, +-Inf and +-NaN are returned unchanged; a
normal number is rescaled so its significand lies in [1, 2), for radix-2
formats only. -/
def fold_const_significand (arg : RealValue) (fmt : real_format) : Option RealValue :=
  match arg.cl with
  | RClass.zero => some arg
  | RClass.nan => some arg
  | RClass.inf => some arg
  | RClass.normal =>
    if fmt.b = 2 then
      some { arg with val := arg.val * qpow2 (1 - real_exp_q arg.val) }
    else none

/-- fold_const_pow: try the generic MPFR path first; on failure, if the
exponent is an exact integer, attempt real_powi, proceeding only when the
exponent is positive, or neither trapping-math nor errno-math is active, or
the base is nonzero; accept the computed power unless (with
unsafe-math-optimizations off) it was inexact or signaling NaNs are honored
and the base is a signaling NaN.  REAL_POWI abstracts real_powi and reports
whether the computation was inexact. -/
def fold_const_pow (real_convert : real_format → RealValue → RealValue)
    (mpfr_pow : RealValue → RealValue → MpfrCall)
    (real_powi : real_format → RealValue → Int → RealValue × Bool)
    (flags : NumericSafetyFlags) (arg0 arg1 : RealValue) (fmt : real_format) :
    Option RealValue :=
  match do_mpfr_arg2 real_convert mpfr_pow arg0 arg1 fmt flags.rounding_math with
  | some r => some r
  | none =>
    if real_identical arg1 (rv_of_int (real_to_integer_q arg1))
        ∧ (0 < real_to_integer_q arg1
           ∨ (flags.trapping_math = false ∧ flags.errno_math = false)
           ∨ real_equal arg0 dconst0 = false) then
      if flags.fastmath = true
          ∨ ((real_powi fmt arg0 (real_to_integer_q arg1)).2 = false
             ∧ ¬(flags.signaling_nans = true ∧ real_issignaling_nan arg0 = true)) then
        some (real_powi fmt arg0 (real_to_integer_q arg1)).1
      else none
    else none

/-- fold_const_nextafter: reject signaling-NaN operands and composite /
decimal / no-Inf / no-denormal formats; after computing, reject if an
underflow or overflow side effect was raised and trapping-math or
errno-math is active, or if trapping-math is active and stepping away from
zero produced a nonzero value.  REAL_NEXTAFTER abstracts real_nextafter and
reports whether it raised underflow/overflow. -/
def fold_const_nextafter
    (real_nextafter : real_format → RealValue → RealValue → RealValue × Bool)
    (real_convert : real_format → RealValue → RealValue)
    (flags : NumericSafetyFlags) (arg0 arg1 : RealValue) (fmt : real_format) :
    Option RealValue :=
  if real_issignaling_nan arg0 = true ∨ real_issignaling_nan arg1 = true then none
  else if fmt.pnan < fmt.p ∨ fmt.b = 10 ∨ fmt.has_inf = false ∨ fmt.has_denorm = false then
    none
  else if (real_nextafter fmt arg0 arg1).2 = true
      ∧ (flags.trapping_math = true ∨ flags.errno_math = true) then none
  else if flags.trapping_math = true ∧ arg0.cl = RClass.zero
      ∧ (real_nextafter fmt arg0 arg1).1.cl ≠ RClass.zero then none
  else some (real_convert fmt (real_nextafter fmt arg0 arg1).1)

/-- fold_const_builtin_load_exponent: bound the adjustment by twice the
format's exponent range; reject signaling-NaN operands when they are
honored and unsafe-math-optimizations is off; reject an infinite shifted
result, and accept only if truncating the shifted result to the target
format leaves its value unchanged.  REAL_LDEXP abstracts real_ldexp and
REAL_VALUE_TRUNCATE abstracts real_value_truncate. -/
def fold_const_builtin_load_exponent
    (real_ldexp : RealValue → Int → RealValue)
    (real_value_truncate : real_format → RealValue → RealValue)
    (flags : NumericSafetyFlags) (arg0 : RealValue) (arg1 : Int)
    (fmt : real_format) : Option RealValue :=
  if arg1 ≤ -(2 * |fmt.emax - fmt.emin|) ∨ 2 * |fmt.emax - fmt.emin| ≤ arg1 then none
  else if flags.fastmath = false ∧ flags.signaling_nans = true
      ∧ real_issignaling_nan arg0 = true then none
  else if real_isinf (real_ldexp arg0 arg1) = true then none
  else if real_equal (real_ldexp arg0 arg1)
      (real_value_truncate fmt (real_ldexp arg0 arg1)) then
    some (real_value_truncate fmt (real_ldexp arg0 arg1))
  else none

/-- The single-real-argument functions dispatched by the real -> real
fold_const_call_ss switch (each constructor stands for the whole CASE_CFN
group of one math function). -/
inductive CFN1
  | sqrt | cbrt | asin | acos | atan | asinh | acosh | atanh
  | sin | cos | tan | sinh | cosh | tanh
  | acospi | asinpi | atanpi | cospi | sinpi | tanpi
  | erf | erfc | tgamma | exp | exp2 | exp10 | expm1
  | log | log2 | log10 | log1p
  | j0 | j1 | y0 | y1
  | floor | ceil | trunc | round | roundeven
  | logb | significand
deriving DecidableEq

/-- fold_const_call_ss (real -> real): the per-function domain guards run
before the generic MPFR path (a failed guard short-circuits the backend
call away); floor/ceil/trunc/round/roundeven fail only on signaling-NaN
input and otherwise use the real-library rounding helpers (abstracted as
RFLOOR..RROUNDEVEN); logb and significand use their closed-form handlers.
MP abstracts the per-function MPFR backend. -/
def fold_const_call_ss_r (real_convert : real_format → RealValue → RealValue)
    (mp : CFN1 → RealValue → MpfrCall)
    (rfloor rceil rtrunc rround rroundeven : real_format → RealValue → RealValue)
    (fn : CFN1) (arg : RealValue) (fmt : real_format)
    (flags : NumericSafetyFlags) : Option RealValue :=
  let a1 := fun f => do_mpfr_arg1 real_convert (mp f) arg fmt flags.rounding_math
  match fn with
  | CFN1.sqrt =>
    if real_compare CmpCode.ge arg dconst0 then a1 CFN1.sqrt else none
  | CFN1.cbrt => a1 CFN1.cbrt
  | CFN1.asin =>
    if real_compare CmpCode.ge arg dconstm1 && real_compare CmpCode.le arg dconst1 then
      a1 CFN1.asin
    else none
  | CFN1.acos =>
    if real_compare CmpCode.ge arg dconstm1 && real_compare CmpCode.le arg dconst1 then
      a1 CFN1.acos
    else none
  | CFN1.atan => a1 CFN1.atan
  | CFN1.asinh => a1 CFN1.asinh
  | CFN1.acosh =>
    if real_compare CmpCode.ge arg dconst1 then a1 CFN1.acosh else none
  | CFN1.atanh =>
    if real_compare CmpCode.ge arg dconstm1 && real_compare CmpCode.le arg dconst1 then
      a1 CFN1.atanh
    else none
  | CFN1.sin => a1 CFN1.sin
  | CFN1.cos => a1 CFN1.cos
  | CFN1.tan => a1 CFN1.tan
  | CFN1.sinh => a1 CFN1.sinh
  | CFN1.cosh => a1 CFN1.cosh
  | CFN1.tanh => a1 CFN1.tanh
  | CFN1.acospi =>
    if real_compare CmpCode.ge arg dconstm1 && real_compare CmpCode.le arg dconst1 then
      a1 CFN1.acospi
    else none
  | CFN1.asinpi =>
    if real_compare CmpCode.ge arg dconstm1 && real_compare CmpCode.le arg dconst1 then
      a1 CFN1.asinpi
    else none
  | CFN1.atanpi => a1 CFN1.atanpi
  | CFN1.cospi => a1 CFN1.cospi
  | CFN1.sinpi => a1 CFN1.sinpi
  | CFN1.tanpi => a1 CFN1.tanpi
  | CFN1.erf => a1 CFN1.erf
  | CFN1.erfc => a1 CFN1.erfc
  | CFN1.tgamma => a1 CFN1.tgamma
  | CFN1.exp => a1 CFN1.exp
  | CFN1.exp2 => a1 CFN1.exp2
  | CFN1.exp10 => a1 CFN1.exp10
  | CFN1.expm1 => a1 CFN1.expm1
  | CFN1.log =>
    if real_compare CmpCode.gt arg dconst0 then a1 CFN1.log else none
  | CFN1.log2 =>
    if real_compare CmpCode.gt arg dconst0 then a1 CFN1.log2 else none
  | CFN1.log10 =>
    if real_compare CmpCode.gt arg dconst0 then a1 CFN1.log10 else none
  | CFN1.log1p =>
    if real_compare CmpCode.gt arg dconstm1 then a1 CFN1.log1p else none
  | CFN1.j0 => a1 CFN1.j0
  | CFN1.j1 => a1 CFN1.j1
  | CFN1.y0 =>
    if real_compare CmpCode.gt arg dconst0 then a1 CFN1.y0 else none
  | CFN1.y1 =>
    if real_compare CmpCode.gt arg dconst0 then a1 CFN1.y1 else none
  | CFN1.floor =>
    if real_issignaling_nan arg = false then some (rfloor fmt arg) else none
  | CFN1.ceil =>
    if real_issignaling_nan arg = false then some (rceil fmt arg) else none
  | CFN1.trunc =>
    if real_issignaling_nan arg = false then some (rtrunc fmt arg) else none
  | CFN1.round =>
    if real_issignaling_nan arg = false then some (rround fmt arg) else none
  | CFN1.roundeven =>
    if real_issignaling_nan arg = false then some (rroundeven fmt arg) else none
  | CFN1.logb => fold_const_logb arg fmt
  | CFN1.significand => fold_const_significand arg fmt

/-- The two-real-argument functions dispatched by the (real, real) -> real
fold_const_call_sss switch. -/
inductive CFN2
  | remainder | atan2 | atan2pi | fdim | fmod | hypot
  | copysign | fmin | fmax | pow | nextafter | nexttoward
deriving DecidableEq

/-- fold_const_call_sss (real, real): generic MPFR path for the
remainder/atan2/fdim/fmod/hypot/fmin/fmax family, closed-form copysign
(the first operand with the second operand's sign), fold_const_pow for
pow, and fold_const_nextafter for nextafter/nexttoward. -/
def fold_const_call_sss_rr (real_convert : real_format → RealValue → RealValue)
    (mp : CFN2 → RealValue → RealValue → MpfrCall)
    (real_powi : real_format → RealValue → Int → RealValue × Bool)
    (real_nextafter : real_format → RealValue → RealValue → RealValue × Bool)
    (fn : CFN2) (arg0 arg1 : RealValue) (fmt : real_format)
    (flags : NumericSafetyFlags) : Option RealValue :=
  let a2 := fun f => do_mpfr_arg2 real_convert (mp f) arg0 arg1 fmt flags.rounding_math
  match fn with
  | CFN2.remainder => a2 CFN2.remainder
  | CFN2.atan2 => a2 CFN2.atan2
  | CFN2.atan2pi => a2 CFN2.atan2pi
  | CFN2.fdim => a2 CFN2.fdim
  | CFN2.fmod => a2 CFN2.fmod
  | CFN2.hypot => a2 CFN2.hypot
  | CFN2.copysign => some { arg0 with sign := arg1.sign }
  | CFN2.fmin => a2 CFN2.fmin
  | CFN2.fmax => a2 CFN2.fmax
  | CFN2.pow => fold_const_pow real_convert (mp CFN2.pow) real_powi flags arg0 arg1 fmt
  | CFN2.nextafter => fold_const_nextafter real_nextafter real_convert flags arg0 arg1 fmt
  | CFN2.nexttoward => fold_const_nextafter real_nextafter real_convert flags arg0 arg1 fmt

/-- The (real, integer) -> real functions dispatched by fold_const_call_sss. -/
inductive CFNri
  | ldexp | scalbn | scalbln | powi
deriving DecidableEq

/-- fold_const_call_sss (real, integer): ldexp directly via the
load-exponent handler, scalbn/scalbln additionally requiring radix 2, and
powi via real_powi guarded only by the signaling-NaN check. -/
def fold_const_call_sss_ri (real_ldexp : RealValue → Int → RealValue)
    (real_value_truncate : real_format → RealValue → RealValue)
    (real_powi : real_format → RealValue → Int → RealValue × Bool)
    (fn : CFNri) (arg0 : RealValue) (arg1 : Int) (fmt : real_format)
    (flags : NumericSafetyFlags) : Option RealValue :=
  match fn with
  | CFNri.ldexp =>
    fold_const_builtin_load_exponent real_ldexp real_value_truncate flags arg0 arg1 fmt
  | CFNri.scalbn =>
    if fmt.b = 2 then
      fold_const_builtin_load_exponent real_ldexp real_value_truncate flags arg0 arg1 fmt
    else none
  | CFNri.scalbln =>
    if fmt.b = 2 then
      fold_const_builtin_load_exponent real_ldexp real_value_truncate flags arg0 arg1 fmt
    else none
  | CFNri.powi =>
    if flags.fastmath = false ∧ flags.signaling_nans = true
        ∧ real_issignaling_nan arg0 = true then none
    else some (real_powi fmt arg0 arg1).1

/-- The (integer, real) -> real functions dispatched by fold_const_call_sss. -/
inductive CFNir
  | jn | yn
deriving DecidableEq

/-- fold_const_call_sss (integer, real): jn unguarded, yn guarded by a
positive real argument. -/
def fold_const_call_sss_ir (real_convert : real_format → RealValue → RealValue)
    (mp : CFNir → Int → RealValue → MpfrCall)
    (fn : CFNir) (arg0 : Int) (arg1 : RealValue) (fmt : real_format)
    (flags : NumericSafetyFlags) : Option RealValue :=
  match fn with
  | CFNir.jn => do_mpfr_arg2_iw real_convert (mp CFNir.jn) arg0 arg1 fmt flags.rounding_math
  | CFNir.yn =>
    if real_compare CmpCode.gt arg1 dconst0 then
      do_mpfr_arg2_iw real_convert (mp CFNir.yn) arg0 arg1 fmt flags.rounding_math
    else none

/-- Modelled from the spec: the reference leading-zero count of wide-int
values (wi::clz), scanning the W-bit representation from the most
significant bit down to the first set bit. -/
def clz_scan (v : Nat) : Nat → Nat
  | 0 => 0
  | k + 1 => if v.testBit k then 0 else clz_scan v k + 1

/-- wi::clz over a W-bit value. -/
def wi_clz (w v : Nat) : Nat := clz_scan v w

/-- Modelled from the spec: the reference trailing-zero count of wide-int
values (wi::ctz), scanning from bit 0 up to the first set bit (FUEL bounds
the scan by the width). -/
def ctz_scan : Nat → Nat → Nat
  | 0, _ => 0
  | fuel + 1, v => if v % 2 = 1 then 0 else ctz_scan fuel (v / 2) + 1

/-- wi::ctz over a W-bit value. -/
def wi_ctz (w v : Nat) : Nat := ctz_scan w v

/-- wi::ffs: zero for zero, otherwise one plus the trailing-zero count. -/
def wi_ffs (w v : Nat) : Nat := if v = 0 then 0 else wi_ctz w v + 1

/-- wi::popcount of a W-bit value. -/
def wi_popcount (w v : Nat) : Nat :=
  ((List.range w).filter (fun i => v.testBit i)).length

/-- wi::parity of a W-bit value. -/
def wi_parity (w v : Nat) : Nat := wi_popcount w v % 2

/-- The signed value denoted by a W-bit pattern (to_shwi). -/
def sint (w v : Nat) : Int :=
  if v < 2 ^ (w - 1) then (v : Int) else (v : Int) - 2 ^ w

/-- The W-bit pattern storing a signed value (wi::shwi builds the wide_int
whose bits are the value reduced modulo 2^W). -/
def wi_shwi (t : Int) (w : Nat) : Nat := (t % ((2 ^ w : Nat) : Int)).toNat

/-- wi::clrsb: the number of leading redundant sign bits of a W-bit
pattern. -/
def wi_clrsb (w v : Nat) : Nat :=
  let x := if v.testBit (w - 1) then (2 ^ w - 1) - v else v
  wi_clz w x - 1

/-- wi::bswap within W bits (W a multiple of 8): byte I of the input
becomes byte (W/8 - 1 - I) of the output. -/
def wi_bswap (w v : Nat) : Nat :=
  (List.range (w / 8)).foldl
    (fun acc i => acc + (v / 2 ^ (8 * i) % 256) * 2 ^ (8 * (w / 8 - 1 - i))) 0

/-- What the folder reads of the argument's integer type: whether it is a
_BitInt and its bit precision. -/
structure arg_type_info where
  isBitInt : Bool
  precision : Nat
deriving DecidableEq

/-- The integer -> integer functions dispatched by fold_const_call_ss and
the two-integer-argument fold_const_call_sss switch. -/
inductive CFNint
  | ffs | clz | ctz | clrsb | popcount | parity
  | bswap16 | bswap32 | bswap64 | bswap128
deriving DecidableEq

/-- fold_const_call_ss (integer -> integer): ffs/clz/ctz/clrsb/popcount/
parity/bswap.  For clz and ctz on zero: a _BitInt argument uses its bit
precision; otherwise the target's C[LT]Z_DEFINED_VALUE_AT_ZERO value is
used when the target defines one (CLZ_ZERO / CTZ_ZERO, none when
undefined), with the argument type's precision as the fallback.  The
result is built with wi::shwi at the result precision; ARG is the
argument's bit pattern at the argument type's precision. -/
def fold_const_call_ss_i (clz_zero ctz_zero : Option Int)
    (fn : CFNint) (arg : Nat) (precision : Nat) (aty : arg_type_info) :
    Option Nat :=
  match fn with
  | CFNint.ffs => some (wi_shwi ((wi_ffs aty.precision arg : Nat) : Int) precision)
  | CFNint.clz =>
    some (wi_shwi
      (if arg ≠ 0 then ((wi_clz aty.precision arg : Nat) : Int)
       else if aty.isBitInt = true then ((aty.precision : Nat) : Int)
       else match clz_zero with
            | some t => t
            | none => ((aty.precision : Nat) : Int)) precision)
  | CFNint.ctz =>
    some (wi_shwi
      (if arg ≠ 0 then ((wi_ctz aty.precision arg : Nat) : Int)
       else if aty.isBitInt = true then ((aty.precision : Nat) : Int)
       else match ctz_zero with
            | some t => t
            | none => ((aty.precision : Nat) : Int)) precision)
  | CFNint.clrsb => some (wi_shwi ((wi_clrsb aty.precision arg : Nat) : Int) precision)
  | CFNint.popcount => some (wi_shwi ((wi_popcount aty.precision arg : Nat) : Int) precision)
  | CFNint.parity => some (wi_shwi ((wi_parity aty.precision arg : Nat) : Int) precision)
  | CFNint.bswap16 => some (wi_bswap precision (wi_shwi (sint aty.precision arg) precision))
  | CFNint.bswap32 => some (wi_bswap precision (wi_shwi (sint aty.precision arg) precision))
  | CFNint.bswap64 => some (wi_bswap precision (wi_shwi (sint aty.precision arg) precision))
  | CFNint.bswap128 => some (wi_bswap precision (wi_shwi (sint aty.precision arg) precision))

/-- fold_const_call_sss (integer, integer): only the generic two-operand
clz/ctz, which on a zero first operand return the caller-supplied second
argument (as a signed host integer) instead of any target value; the
argument type is unused.  ARG0 is a pattern at width AW, ARG1 a pattern at
width A1W. -/
def fold_const_call_sss_ii (fn : CFNint) (arg0 : Nat) (aw : Nat)
    (arg1 : Nat) (a1w : Nat) (precision : Nat) : Option Nat :=
  match fn with
  | CFNint.clz =>
    some (wi_shwi
      (if arg0 ≠ 0 then ((wi_clz aw arg0 : Nat) : Int) else sint a1w arg1) precision)
  | CFNint.ctz =>
    some (wi_shwi
      (if arg0 ≠ 0 then ((wi_ctz aw arg0 : Nat) : Int) else sint a1w arg1) precision)
  | _ => none

/-- An integer type as the overflow folder sees it: bit precision and
signedness. -/
structure IntTy where
  prec : Nat
  uns : Bool
deriving DecidableEq

/-- The smallest value of an integer type. -/
def ity_min (t : IntTy) : Int := if t.uns then 0 else -(2 ^ (t.prec - 1))

/-- The largest value of an integer type. -/
def ity_max (t : IntTy) : Int := if t.uns then 2 ^ t.prec - 1 else 2 ^ (t.prec - 1) - 1

/-- Whether a value is representable in an integer type. -/
def ity_inRange (t : IntTy) (v : Int) : Bool :=
  decide (ity_min t ≤ v ∧ v ≤ ity_max t)

/-- Reduction of a value into an integer type: modulo 2^prec into
[0, 2^prec) for unsigned types, into [-2^(prec-1), 2^(prec-1)) for signed
ones (fold_convert / int_const_binop truncation semantics). -/
def ity_wrap (t : IntTy) (v : Int) : Int :=
  if t.uns then v % ((2 ^ t.prec : Nat) : Int)
  else (v + 2 ^ (t.prec - 1)) % ((2 ^ t.prec : Nat) : Int) - 2 ^ (t.prec - 1)

/-- The three overflow-checked operations. -/
inductive ArithOp
  | add | sub | mul
deriving DecidableEq

/-- The exact integer operation. -/
def arith_apply (op : ArithOp) (a b : Int) : Int :=
  match op with
  | ArithOp.add => a + b
  | ArithOp.sub => a - b
  | ArithOp.mul => a * b

/-- arith_overflowed_p: whether the exact (widest-int) result of the
operation on the original operand values fits the nominal type. -/
def arith_overflowed_p (op : ArithOp) (t : IntTy) (a0 a1 : Int) : Bool :=
  !(ity_inRange t (arith_apply op a0 a1))

/-- int_const_binop on constants of type T: the exact result reduced into
T (any overflow is flagged on the tree and dropped by the caller). -/
def int_const_binop (op : ArithOp) (t : IntTy) (a b : Int) : Int :=
  ity_wrap t (arith_apply op a b)

/-- The two flavours of overflow arithmetic dispatched by the arith_overflow
block of the two-argument fold_const_call: ADD/SUB/MUL_OVERFLOW have a
complex result type (checked), UBSAN_CHECK_ADD/SUB/MUL a scalar one
(trap). -/
inductive OvfKind
  | checked | trap
deriving DecidableEq

/-- The folded result of the overflow block: a scalar constant, or a
complex (value, overflow-flag) pair. -/
inductive OvfRes
  | scalar (v : Int)
  | cpx (v : Int) (ovf : Bool)
deriving DecidableEq

/-- The arith_overflow block of the two-argument fold_const_call: ITYPE is
the element type of a complex result type, or the scalar result type
itself; the operands are converted to ITYPE, combined by int_const_binop
with any overflow flag dropped, and the overflow predicate is computed on
the original operand values.  With a complex result type the fold always
produces the (truncated value, flag) pair; with a scalar result type it
fails whenever overflow was detected. -/
def fold_arith_overflow (kind : OvfKind) (op : ArithOp) (ity : IntTy)
    (a0 a1 : Int) : Option OvfRes :=
  match kind with
  | OvfKind.trap =>
    if arith_overflowed_p op ity a0 a1 then none
    else some (OvfRes.scalar (int_const_binop op ity (ity_wrap ity a0) (ity_wrap ity a1)))
  | OvfKind.checked =>
    some (OvfRes.cpx (int_const_binop op ity (ity_wrap ity a0) (ity_wrap ity a1))
      (arith_overflowed_p op ity a0 a1))

/-- What the string/memory oracle reads of one buffer operand: its
TREE_SIDE_EFFECTS flag, its NUL-terminated string content when c_getstr
can extract one, and its raw byte representation with statically known
length when getbyterep can. -/
structure StrArg where
  se : Bool
  str : Option (List Nat)
  bytes : Option (List Nat)

/-- What the oracle reads of the character operand of memchr: its
TREE_SIDE_EFFECTS flag and its constant byte value when
target_char_cst_p succeeds. -/
structure CharArg where
  se : Bool
  c : Option Nat

/-- Modelled from the spec: an operand whose full byte content is
statically known (a literal) carries no observable side effect, so the
content accessors fail on a side-effecting operand. -/
def strarg_pure (a : StrArg) : Prop :=
  a.se = true → a.str = none ∧ a.bytes = none

/-- Modelled from the spec: a constant character operand carries no
observable side effect. -/
def chararg_pure (a : CharArg) : Prop := a.se = true → a.c = none

/-- strncmp on NUL-terminated contents (sign of the first differing byte,
the terminating NUL comparing below every content byte), limited to N
bytes. -/
def strncmp_list : List Nat → List Nat → Nat → Int
  | _, _, 0 => 0
  | [], [], _ + 1 => 0
  | [], _ :: _, _ + 1 => -1
  | _ :: _, [], _ + 1 => 1
  | a :: as, b :: bs, n + 1 =>
    if a < b then -1 else if b < a then 1 else strncmp_list as bs n

/-- memcmp on the first N bytes of two representations of length at least
N, canonicalized to -1/0/1 as by build_cmp_result. -/
def memcmp_list : List Nat → List Nat → Nat → Int
  | _, _, 0 => 0
  | a :: as, b :: bs, n + 1 =>
    if a < b then -1 else if b < a then 1 else memcmp_list as bs n
  | _, _, _ + 1 => 0

/-- The strncmp case of the three-argument fold_const_call: require a
size_t constant bound (BOUND is none otherwise); a zero bound folds to 0
when neither operand has side effects; otherwise both contents must be
known strings. -/
def fold_const_call_strncmp (a0 a1 : StrArg) (bound : Option Nat) : Option Int :=
  match bound with
  | none => none
  | some s2 =>
    if s2 = 0 ∧ a0.se = false ∧ a1.se = false then some 0
    else
      match a0.str, a1.str with
      | some p0, some p1 => some (strncmp_list p0 p1 s2)
      | _, _ => none

/-- The strncasecmp case: a zero bound folds to 0 when neither operand has
side effects; otherwise fold to 0 only when the contents are known and
already equal under the case-sensitive comparison. -/
def fold_const_call_strncasecmp (a0 a1 : StrArg) (bound : Option Nat) : Option Int :=
  match bound with
  | none => none
  | some s2 =>
    if s2 = 0 ∧ a0.se = false ∧ a1.se = false then some 0
    else
      match a0.str, a1.str with
      | some p0, some p1 =>
        if strncmp_list p0 p1 s2 = 0 then some 0 else none
      | _, _ => none

/-- The bcmp/memcmp case: a zero bound folds to 0 when neither operand has
side effects; otherwise both byte representations must be known and at
least as long as the bound. -/
def fold_const_call_memcmp (a0 a1 : StrArg) (bound : Option Nat) : Option Int :=
  match bound with
  | none => none
  | some s2 =>
    if s2 = 0 ∧ a0.se = false ∧ a1.se = false then some 0
    else
      match a0.bytes, a1.bytes with
      | some p0, some p1 =>
        if s2 ≤ p0.length ∧ s2 ≤ p1.length then some (memcmp_list p0 p1 s2) else none
      | _, _ => none

/-- The result of folding memchr: a null pointer constant or a pointer
into the buffer at a known offset. -/
inductive MemchrRes
  | null
  | ptr (off : Nat)
deriving DecidableEq

/-- The memchr case: a zero bound folds to null when neither operand has
side effects; otherwise the byte representation must be known, at least as
long as the bound, and the character a constant; the result is null, or
the buffer plus the offset of the first occurrence. -/
def fold_const_call_memchr (a0 : StrArg) (a1 : CharArg) (bound : Option Nat) :
    Option MemchrRes :=
  match bound with
  | none => none
  | some s2 =>
    if s2 = 0 ∧ a0.se = false ∧ a1.se = false then some MemchrRes.null
    else
      match a0.bytes, a1.c with
      | some p0, some c =>
        if s2 ≤ p0.length then
          match (p0.take s2).findIdx? (fun b => b = c) with
          | none => some MemchrRes.null
          | some i => some (MemchrRes.ptr i)
        else none
      | _, _ => none

/-- A model real_convert instantiating witnesses: the identity conversion
(an already-representable value converts to itself). -/
def conv_id : real_format → RealValue → RealValue := fun _ r => r

/-- A model backend outcome whose result is not a number, on which the
exactness gate fails. -/
def mpfr_fail : MpfrCall := ⟨⟨false, false, dconst0⟩, false, false, false⟩

/-- A two-argument backend that always produces the failing outcome. -/
def mp2_fail : RealValue → RealValue → MpfrCall := fun _ _ => mpfr_fail

/-- A one-argument backend table that always produces the failing
outcome. -/
def mp1_fail : CFN1 → RealValue → MpfrCall := fun _ _ => mpfr_fail

/-- A backend outcome that passes the gate: a nonzero finite number whose
format conversion is exact. -/
def mpcall_ok : MpfrCall := ⟨⟨true, false, dconst1⟩, false, false, false⟩

/-- A complex backend outcome that passes the gate on both components. -/
def mpccall_ok : MpcCall :=
  ⟨⟨true, false, dconst1⟩, ⟨true, false, dconst1⟩, false, false, false⟩

/-- Modelled from the spec: exact integer-power evaluation (real_powi on
the rational model; the spec calls the fallback "exact integer-power
evaluation", and powers of representable values are exact at the internal
precision for the witness inputs used here). -/
def powi_exact : real_format → RealValue → Int → RealValue × Bool := fun _ a n =>
  match a.cl with
  | RClass.normal =>
    (⟨RClass.normal, a.sign && decide (n % 2 ≠ 0), false, 0, a.val ^ n⟩, false)
  | _ => (a, false)

/-- A real_powi whose computation rounded (the inexact report is true), as
happens whenever the exact power needs more significand bits than the
internal representation has. -/
def powi_inexact : real_format → RealValue → Int → RealValue × Bool :=
  fun fmt a n => ((powi_exact fmt a n).1, true)

/-- The binary64 format parameters. -/
def fmt64 : real_format := ⟨2, 53, 53, -1073, 1024, false, true, true⟩

/-- All numeric-safety flags off. -/
def flags0 : NumericSafetyFlags := ⟨false, false, false, false, false⟩

/-- The real constant 2. -/
def rv2 : RealValue := ⟨RClass.normal, false, false, 0, 2⟩

/-- The real constant 3. -/
def rv3 : RealValue := ⟨RClass.normal, false, false, 0, 3⟩

/-- The real constant 10. -/
def rv10 : RealValue := ⟨RClass.normal, false, false, 0, 10⟩

/-- The real constant 200. -/
def rv200 : RealValue := ⟨RClass.normal, false, false, 0, 200⟩

/-- The real constant 1024. -/
def rv1024 : RealValue := ⟨RClass.normal, false, false, 0, 1024⟩

/-- A signaling NaN with a nonzero payload. -/
def snan_test : RealValue := ⟨RClass.nan, false, true, 5, 0⟩

/-- Bit-identical values have the same class. -/
theorem real_identical_cl {a b : RealValue} (h : real_identical a b = true) :
    a.cl = b.cl := by
  unfold real_identical at h
  simp only [Bool.and_eq_true, decide_eq_true_eq] at h
  exact h.1.1

/-- Finiteness only depends on the class. -/
theorem real_isfinite_of_cl {a b : RealValue} (h : a.cl = b.cl) :
    real_isfinite a = real_isfinite b := by
  unfold real_isfinite
  rw [h]

/-- A strictly smaller value is not greater-or-equal. -/
theorem real_compare_lt_not_ge {a b : RealValue}
    (h : real_compare CmpCode.lt a b = true) :
    real_compare CmpCode.ge a b = false := by
  by_cases hn : a.cl = RClass.nan ∨ b.cl = RClass.nan
  · simp [real_compare, do_compare, hn] at h
  · simp only [real_compare, do_compare, if_neg hn, decide_eq_true_eq] at h
    simp only [real_compare, do_compare, if_neg hn, decide_eq_false_iff_not]
    omega

/-- A less-or-equal value is not strictly greater. -/
theorem real_compare_le_not_gt {a b : RealValue}
    (h : real_compare CmpCode.le a b = true) :
    real_compare CmpCode.gt a b = false := by
  by_cases hn : a.cl = RClass.nan ∨ b.cl = RClass.nan
  · simp [real_compare, do_compare, hn] at h
  · simp only [real_compare, do_compare, if_neg hn, decide_eq_true_eq] at h
    simp only [real_compare, do_compare, if_neg hn, decide_eq_false_iff_not]
    omega

/-- A strictly greater value is not less-or-equal. -/
theorem real_compare_gt_not_le {a b : RealValue}
    (h : real_compare CmpCode.gt a b = true) :
    real_compare CmpCode.le a b = false := by
  by_cases hn : a.cl = RClass.nan ∨ b.cl = RClass.nan
  · simp [real_compare, do_compare, hn] at h
  · simp only [real_compare, do_compare, if_neg hn, decide_eq_true_eq] at h
    simp only [real_compare, do_compare, if_neg hn, decide_eq_false_iff_not]
    omega

/-- C1: the exactness gate succeeds only if the raw working-precision
value (each component, for complex results) is finite with no
overflow/underflow flag raised, the conversion to the target format is
finite and agrees with the working-precision value on zero-ness, and the
accepted target-format value is bit-for-bit identical to the
pre-conversion value; hence every value it accepts is finite and
re-expands to itself exactly. -/
theorem C1_exactness_gate_roundtrip :
    (∀ (rc : real_format → RealValue → RealValue) (fmt : real_format)
        (c : MpfrCall) (rm : Bool) (r : RealValue),
        do_mpfr_ckconv rc fmt c rm = some r →
          c.part.isNumber = true ∧ c.overflow = false ∧ c.underflow = false
          ∧ real_isfinite c.part.toReal = true
          ∧ ((c.part.toReal.cl = RClass.zero) ↔ c.part.isZero = true)
          ∧ r = rc fmt c.part.toReal
          ∧ real_identical r c.part.toReal = true
          ∧ real_isfinite r = true)
    ∧ (∀ (rc : real_format → RealValue → RealValue) (fmt : real_format)
        (c : MpcCall) (rm : Bool) (rr ri : RealValue),
        do_mpc_ckconv rc fmt c rm = some (rr, ri) →
          c.re.isNumber = true ∧ c.im.isNumber = true
          ∧ c.overflow = false ∧ c.underflow = false
          ∧ real_isfinite c.re.toReal = true ∧ real_isfinite c.im.toReal = true
          ∧ ((c.re.toReal.cl = RClass.zero) ↔ c.re.isZero = true)
          ∧ ((c.im.toReal.cl = RClass.zero) ↔ c.im.isZero = true)
          ∧ rr = rc fmt c.re.toReal ∧ ri = rc fmt c.im.toReal
          ∧ real_identical rr c.re.toReal = true
          ∧ real_identical ri c.im.toReal = true
          ∧ real_isfinite rr = true ∧ real_isfinite ri = true) := by
  constructor
  · intro rc fmt c rm r h
    unfold do_mpfr_ckconv at h
    split_ifs at h with h1 h2 h3
    simp only [not_or, Bool.not_eq_false, Bool.not_eq_true, not_and] at h1
    simp only [not_or, Bool.not_eq_false, not_not] at h2
    obtain rfl : r = rc fmt c.part.toReal := (Option.some.inj h).symm
    refine ⟨h1.1, h1.2.1, h1.2.2.1, h2.1, h2.2, rfl, h3, ?_⟩
    rw [real_isfinite_of_cl (real_identical_cl h3)]
    exact h2.1
  · intro rc fmt c rm rr ri h
    unfold do_mpc_ckconv at h
    split_ifs at h with h1 h2 h3
    simp only [not_or, Bool.not_eq_false, Bool.not_eq_true, not_and] at h1
    simp only [not_or, Bool.not_eq_false, not_not] at h2
    simp only [Bool.and_eq_true] at h3
    have hp := Option.some.inj h
    have he1 : rc fmt c.re.toReal = rr := congrArg Prod.fst hp
    have he2 : rc fmt c.im.toReal = ri := congrArg Prod.snd hp
    obtain rfl : rr = rc fmt c.re.toReal := he1.symm
    obtain rfl : ri = rc fmt c.im.toReal := he2.symm
    refine ⟨h1.1, h1.2.1, h1.2.2.1, h1.2.2.2.1, h2.1, h2.2.1, h2.2.2.1, h2.2.2.2,
      rfl, rfl, h3.1, h3.2, ?_, ?_⟩
    · rw [real_isfinite_of_cl (real_identical_cl h3.1)]
      exact h2.1
    · rw [real_isfinite_of_cl (real_identical_cl h3.2)]
      exact h2.2.1

/-- Witness for C1: the gate accepts a concrete exact outcome, and the
theorem's finiteness conclusion is obtained by applying it there. -/
theorem C1_exactness_gate_roundtrip_witness :
    do_mpfr_ckconv conv_id fmt64 mpcall_ok false = some dconst1
    ∧ do_mpc_ckconv conv_id fmt64 mpccall_ok false = some (dconst1, dconst1)
    ∧ real_isfinite dconst1 = true ∧ real_identical dconst1 dconst1 = true := by
  have h1 := C1_exactness_gate_roundtrip.1 conv_id fmt64 mpcall_ok false dconst1 (by decide)
  have h2 := C1_exactness_gate_roundtrip.2 conv_id fmt64 mpccall_ok false dconst1 dconst1
    (by decide)
  exact ⟨by decide, by decide, h1.2.2.2.1, h1.2.2.2.2.2.2.1⟩

/-- C2: the per-function domain guards reject out-of-domain arguments
before any backend call (the result is "not folded" for every possible
backend): sqrt with argument < 0, log/log2/log10 with argument ≤ 0, log1p
with argument ≤ -1, asin/acos/atanh with argument outside [-1, 1], acosh
with argument < 1, and y0/y1 with argument ≤ 0; in particular sqrt(-1),
log(0), log(-1), asin(2) and acosh(0) are never folded. -/
theorem C2_domain_guards :
    ∀ (rc : real_format → RealValue → RealValue) (mp : CFN1 → RealValue → MpfrCall)
      (g1 g2 g3 g4 g5 : real_format → RealValue → RealValue)
      (arg : RealValue) (fmt : real_format) (flags : NumericSafetyFlags),
      (real_compare CmpCode.lt arg dconst0 = true →
        fold_const_call_ss_r rc mp g1 g2 g3 g4 g5 CFN1.sqrt arg fmt flags = none)
      ∧ (real_compare CmpCode.le arg dconst0 = true →
          fold_const_call_ss_r rc mp g1 g2 g3 g4 g5 CFN1.log arg fmt flags = none
          ∧ fold_const_call_ss_r rc mp g1 g2 g3 g4 g5 CFN1.log2 arg fmt flags = none
          ∧ fold_const_call_ss_r rc mp g1 g2 g3 g4 g5 CFN1.log10 arg fmt flags = none
          ∧ fold_const_call_ss_r rc mp g1 g2 g3 g4 g5 CFN1.y0 arg fmt flags = none
          ∧ fold_const_call_ss_r rc mp g1 g2 g3 g4 g5 CFN1.y1 arg fmt flags = none)
      ∧ (real_compare CmpCode.le arg dconstm1 = true →
          fold_const_call_ss_r rc mp g1 g2 g3 g4 g5 CFN1.log1p arg fmt flags = none)
      ∧ (real_compare CmpCode.gt arg dconst1 = true
            ∨ real_compare CmpCode.lt arg dconstm1 = true →
          fold_const_call_ss_r rc mp g1 g2 g3 g4 g5 CFN1.asin arg fmt flags = none
          ∧ fold_const_call_ss_r rc mp g1 g2 g3 g4 g5 CFN1.acos arg fmt flags = none
          ∧ fold_const_call_ss_r rc mp g1 g2 g3 g4 g5 CFN1.atanh arg fmt flags = none)
      ∧ (real_compare CmpCode.lt arg dconst1 = true →
          fold_const_call_ss_r rc mp g1 g2 g3 g4 g5 CFN1.acosh arg fmt flags = none)
      ∧ fold_const_call_ss_r rc mp g1 g2 g3 g4 g5 CFN1.sqrt dconstm1 fmt flags = none
      ∧ fold_const_call_ss_r rc mp g1 g2 g3 g4 g5 CFN1.log dconst0 fmt flags = none
      ∧ fold_const_call_ss_r rc mp g1 g2 g3 g4 g5 CFN1.log dconstm1 fmt flags = none
      ∧ fold_const_call_ss_r rc mp g1 g2 g3 g4 g5 CFN1.asin rv2 fmt flags = none
      ∧ fold_const_call_ss_r rc mp g1 g2 g3 g4 g5 CFN1.acosh dconst0 fmt flags = none := by
  intro rc mp g1 g2 g3 g4 g5 arg fmt flags
  refine ⟨?_, ?_, ?_, ?_, ?_, ?_, ?_, ?_, ?_, ?_⟩
  · intro h
    simp [fold_const_call_ss_r, real_compare_lt_not_ge h]
  · intro h
    refine ⟨?_, ?_, ?_, ?_, ?_⟩ <;>
      simp [fold_const_call_ss_r, real_compare_le_not_gt h]
  · intro h
    simp [fold_const_call_ss_r, real_compare_le_not_gt h]
  · intro h
    rcases h with h | h
    · refine ⟨?_, ?_, ?_⟩ <;>
        simp [fold_const_call_ss_r, real_compare_gt_not_le h]
    · refine ⟨?_, ?_, ?_⟩ <;>
        simp [fold_const_call_ss_r, real_compare_lt_not_ge h]
  · intro h
    simp [fold_const_call_ss_r, real_compare_lt_not_ge h]
  · have hg : real_compare CmpCode.ge dconstm1 dconst0 = false := by decide
    simp [fold_const_call_ss_r, hg]
  · have hg : real_compare CmpCode.gt dconst0 dconst0 = false := by decide
    simp [fold_const_call_ss_r, hg]
  · have hg : real_compare CmpCode.gt dconstm1 dconst0 = false := by decide
    simp [fold_const_call_ss_r, hg]
  · have hg : real_compare CmpCode.le rv2 dconst1 = false := by decide
    simp [fold_const_call_ss_r, hg]
  · have hg : real_compare CmpCode.ge dconst0 dconst1 = false := by decide
    simp [fold_const_call_ss_r, hg]

/-- Witness for C2: sqrt of -1 is rejected by the guard for an arbitrary
concrete backend. -/
theorem C2_domain_guards_witness :
    real_compare CmpCode.lt dconstm1 dconst0 = true
    ∧ fold_const_call_ss_r conv_id mp1_fail conv_id conv_id conv_id conv_id conv_id
        CFN1.sqrt dconstm1 fmt64 flags0 = none :=
  ⟨by decide,
   (C2_domain_guards conv_id mp1_fail conv_id conv_id conv_id conv_id conv_id
     dconstm1 fmt64 flags0).1 (by decide)⟩

/-- C7: floor/ceil/trunc/round/roundeven fold successfully iff the
argument is not a signaling NaN; logb and significand return any NaN
(quiet or signaling) unchanged, logb clears an infinity's sign to
positive, and significand passes zero and infinity through unchanged. -/
theorem C7_snan_preservation :
    ∀ (rc : real_format → RealValue → RealValue) (mp : CFN1 → RealValue → MpfrCall)
      (g1 g2 g3 g4 g5 : real_format → RealValue → RealValue)
      (arg : RealValue) (fmt : real_format) (flags : NumericSafetyFlags),
      ((fold_const_call_ss_r rc mp g1 g2 g3 g4 g5 CFN1.floor arg fmt flags ≠ none)
          ↔ real_issignaling_nan arg = false)
      ∧ ((fold_const_call_ss_r rc mp g1 g2 g3 g4 g5 CFN1.ceil arg fmt flags ≠ none)
          ↔ real_issignaling_nan arg = false)
      ∧ ((fold_const_call_ss_r rc mp g1 g2 g3 g4 g5 CFN1.trunc arg fmt flags ≠ none)
          ↔ real_issignaling_nan arg = false)
      ∧ ((fold_const_call_ss_r rc mp g1 g2 g3 g4 g5 CFN1.round arg fmt flags ≠ none)
          ↔ real_issignaling_nan arg = false)
      ∧ ((fold_const_call_ss_r rc mp g1 g2 g3 g4 g5 CFN1.roundeven arg fmt flags ≠ none)
          ↔ real_issignaling_nan arg = false)
      ∧ (arg.cl = RClass.nan →
          fold_const_call_ss_r rc mp g1 g2 g3 g4 g5 CFN1.logb arg fmt flags = some arg
          ∧ fold_const_call_ss_r rc mp g1 g2 g3 g4 g5 CFN1.significand arg fmt flags
              = some arg)
      ∧ (arg.cl = RClass.inf →
          fold_const_call_ss_r rc mp g1 g2 g3 g4 g5 CFN1.logb arg fmt flags
              = some { arg with sign := false }
          ∧ fold_const_call_ss_r rc mp g1 g2 g3 g4 g5 CFN1.significand arg fmt flags
              = some arg)
      ∧ (arg.cl = RClass.zero →
          fold_const_call_ss_r rc mp g1 g2 g3 g4 g5 CFN1.significand arg fmt flags
              = some arg) := by
  intro rc mp g1 g2 g3 g4 g5 arg fmt flags
  refine ⟨?_, ?_, ?_, ?_, ?_, ?_, ?_, ?_⟩
  · by_cases hs : real_issignaling_nan arg = false <;>
      simp [fold_const_call_ss_r, hs]
  · by_cases hs : real_issignaling_nan arg = false <;>
      simp [fold_const_call_ss_r, hs]
  · by_cases hs : real_issignaling_nan arg = false <;>
      simp [fold_const_call_ss_r, hs]
  · by_cases hs : real_issignaling_nan arg = false <;>
      simp [fold_const_call_ss_r, hs]
  · by_cases hs : real_issignaling_nan arg = false <;>
      simp [fold_const_call_ss_r, hs]
  · intro h
    rcases arg with ⟨cl, sg, sn, pl, v⟩
    simp only at h
    subst h
    constructor <;> simp [fold_const_call_ss_r, fold_const_logb, fold_const_significand]
  · intro h
    rcases arg with ⟨cl, sg, sn, pl, v⟩
    simp only at h
    subst h
    constructor <;> simp [fold_const_call_ss_r, fold_const_logb, fold_const_significand]
  · intro h
    rcases arg with ⟨cl, sg, sn, pl, v⟩
    simp only at h
    subst h
    simp [fold_const_call_ss_r, fold_const_significand]

/-- Witness for C7: a concrete signaling NaN is returned unchanged by
logb and significand. -/
theorem C7_snan_preservation_witness :
    snan_test.cl = RClass.nan
    ∧ fold_const_call_ss_r conv_id mp1_fail conv_id conv_id conv_id conv_id conv_id
        CFN1.logb snan_test fmt64 flags0 = some snan_test
    ∧ fold_const_call_ss_r conv_id mp1_fail conv_id conv_id conv_id conv_id conv_id
        CFN1.significand snan_test fmt64 flags0 = some snan_test :=
  ⟨by decide,
   (C7_snan_preservation conv_id mp1_fail conv_id conv_id conv_id conv_id conv_id
     snan_test fmt64 flags0).2.2.2.2.2.1 (by decide)⟩

/-- C10: copysign always folds, with no gate, flag check or signaling-NaN
rejection, to the first operand with its sign bit replaced by the second
operand's sign, for every value class, preserving payload, signalling bit
and magnitude. -/
theorem C10_copysign_always :
    ∀ (rc : real_format → RealValue → RealValue)
      (mp : CFN2 → RealValue → RealValue → MpfrCall)
      (real_powi : real_format → RealValue → Int → RealValue × Bool)
      (real_nextafter : real_format → RealValue → RealValue → RealValue × Bool)
      (a0 a1 : RealValue) (fmt : real_format) (flags : NumericSafetyFlags),
      fold_const_call_sss_rr rc mp real_powi real_nextafter CFN2.copysign a0 a1 fmt flags
        = some ⟨a0.cl, a1.sign, a0.signaling, a0.payload, a0.val⟩ := by
  intro rc mp real_powi real_nextafter a0 a1 fmt flags
  rfl

/-- Flags with only trapping-math on. -/
def flagsTE : NumericSafetyFlags := ⟨true, false, false, false, false⟩

/-- C3 (amended): once the generic path has failed and the fallback's
entry conditions hold, the computed integer power is suppressed exactly
when unsafe-math-optimizations is off and either the computation was
inexact, or signaling NaNs are honored and the base is a signaling NaN
(unsafe-math-optimizations unconditionally allows the fold). -/
theorem C3_pow_fallback_suppression :
    ∀ (rc : real_format → RealValue → RealValue)
      (mp : RealValue → RealValue → MpfrCall)
      (real_powi : real_format → RealValue → Int → RealValue × Bool)
      (flags : NumericSafetyFlags) (a0 a1 : RealValue) (fmt : real_format),
      do_mpfr_arg2 rc mp a0 a1 fmt flags.rounding_math = none →
      real_identical a1 (rv_of_int (real_to_integer_q a1)) = true →
      (0 < real_to_integer_q a1
        ∨ (flags.trapping_math = false ∧ flags.errno_math = false)
        ∨ real_equal a0 dconst0 = false) →
      (fold_const_pow rc mp real_powi flags a0 a1 fmt = none
        ↔ flags.fastmath = false
          ∧ ((real_powi fmt a0 (real_to_integer_q a1)).2 = true
             ∨ (flags.signaling_nans = true ∧ real_issignaling_nan a0 = true))) := by
  intro rc mp real_powi flags a0 a1 fmt hmp hid hcond
  simp only [fold_const_pow, hmp]
  rw [if_pos ⟨hid, hcond⟩]
  by_cases hfm : flags.fastmath = true
  · simp [hfm]
  · simp only [Bool.not_eq_true] at hfm
    by_cases hin : (real_powi fmt a0 (real_to_integer_q a1)).2 = true
    · by_cases hy : flags.signaling_nans = true ∧ real_issignaling_nan a0 = true
      · simp [hfm, hin, hy]
      · simp [hfm, hin, hy]
    · simp only [Bool.not_eq_true] at hin
      by_cases hy : flags.signaling_nans = true ∧ real_issignaling_nan a0 = true
      · simp [hfm, hin, hy]
      · simp [hfm, hin, hy]

/-- Witness for C3: the suppression criterion instantiated at
pow(2, 10) with the exact powi model and all flags off. -/
theorem C3_pow_fallback_suppression_witness :
    do_mpfr_arg2 conv_id mp2_fail rv2 rv10 fmt64 flags0.rounding_math = none
    ∧ (fold_const_pow conv_id mp2_fail powi_exact flags0 rv2 rv10 fmt64 = none
        ↔ flags0.fastmath = false
          ∧ ((powi_exact fmt64 rv2 (real_to_integer_q rv10)).2 = true
             ∨ (flags0.signaling_nans = true ∧ real_issignaling_nan rv2 = true))) :=
  ⟨by decide,
   C3_pow_fallback_suppression conv_id mp2_fail powi_exact flags0 rv2 rv10 fmt64
     (by decide) (by decide) (by decide)⟩

/-- Counterexample to C3 as stated: with unsafe-math off and signaling
NaNs not honored, an inexact integer-power computation on the plain base 3
with exponent 200 (whose exact power needs more significand bits than the
internal representation has) is suppressed even though not all three of
the claim's conditions hold, so the fallback does not succeed "unless all
three of those hold". -/
theorem C3_counterexample_inexact_suppressed :
    do_mpfr_arg2 conv_id mp2_fail rv3 rv200 fmt64 flags0.rounding_math = none
    ∧ real_identical rv200 (rv_of_int (real_to_integer_q rv200)) = true
    ∧ 0 < real_to_integer_q rv200
    ∧ ¬(flags0.signaling_nans = true
        ∧ (powi_inexact fmt64 rv3 (real_to_integer_q rv200)).2 = true
        ∧ real_issignaling_nan rv3 = true)
    ∧ (powi_inexact fmt64 rv3 (real_to_integer_q rv200)).2 = true
    ∧ fold_const_pow conv_id mp2_fail powi_inexact flags0 rv3 rv200 fmt64 = none := by
  refine ⟨by decide, by decide, by decide, by decide, by decide, ?_⟩
  decide

/-- C9: when the generic evaluation of pow fails and the exponent is an
exact integer, the integer-power fallback proceeds only when the exponent
is positive, or neither trapping-math nor errno-math is active, or the
base is nonzero; consequently pow(0, -1) is not folded while trapping-math
or errno-math is active (the generic path failing there), and pow(2, 10)
on binary64 folds to exactly 1024. -/
theorem C9_pow_fallback_guard :
    (∀ (rc : real_format → RealValue → RealValue)
        (mp : RealValue → RealValue → MpfrCall)
        (real_powi : real_format → RealValue → Int → RealValue × Bool)
        (flags : NumericSafetyFlags) (a0 a1 : RealValue) (fmt : real_format),
        do_mpfr_arg2 rc mp a0 a1 fmt flags.rounding_math = none →
        ¬(0 < real_to_integer_q a1
          ∨ (flags.trapping_math = false ∧ flags.errno_math = false)
          ∨ real_equal a0 dconst0 = false) →
        fold_const_pow rc mp real_powi flags a0 a1 fmt = none)
    ∧ (∀ (rc : real_format → RealValue → RealValue)
        (mp : RealValue → RealValue → MpfrCall)
        (real_powi : real_format → RealValue → Int → RealValue × Bool)
        (flags : NumericSafetyFlags),
        (flags.trapping_math = true ∨ flags.errno_math = true) →
        do_mpfr_arg2 rc mp dconst0 dconstm1 fmt64 flags.rounding_math = none →
        fold_const_pow rc mp real_powi flags dconst0 dconstm1 fmt64 = none)
    ∧ fold_const_pow conv_id mp2_fail powi_exact flags0 rv2 rv10 fmt64 = some rv1024 := by
  refine ⟨?_, ?_, ?_⟩
  · intro rc mp real_powi flags a0 a1 fmt hmp hng
    simp only [fold_const_pow, hmp]
    exact if_neg (fun hc => hng hc.2)
  · intro rc mp real_powi flags ht hmp
    simp only [fold_const_pow, hmp]
    refine if_neg ?_
    rintro ⟨_, hc⟩
    rcases hc with h1 | h2 | h3
    · have hm1 : real_to_integer_q dconstm1 = -1 := by decide
      rw [hm1] at h1
      omega
    · rcases ht with ht | ht
      · rw [ht] at h2
        exact Bool.noConfusion h2.1
      · rw [ht] at h2
        exact Bool.noConfusion h2.2
    · have he : real_equal dconst0 dconst0 = true := by decide
      rw [he] at h3
      exact Bool.noConfusion h3
  · have hmp : do_mpfr_arg2 conv_id mp2_fail rv2 rv10 fmt64 flags0.rounding_math = none := by
      decide
    simp only [fold_const_pow, hmp]
    rw [if_pos ⟨by decide, Or.inl (by decide)⟩]
    rw [if_pos (Or.inr ⟨by decide, by decide⟩)]
    have hn : real_to_integer_q rv10 = 10 := by decide
    rw [hn]
    simp only [powi_exact, rv2, rv1024, Option.some.injEq, RealValue.mk.injEq]
    norm_num

/-- Witness for C9: pow(0, -1) with trapping-math on is not folded. -/
theorem C9_pow_fallback_guard_witness :
    (flagsTE.trapping_math = true ∨ flagsTE.errno_math = true)
    ∧ fold_const_pow conv_id mp2_fail powi_exact flagsTE dconst0 dconstm1 fmt64 = none :=
  ⟨Or.inl (by decide),
   C9_pow_fallback_guard.2.1 conv_id mp2_fail powi_exact flagsTE (Or.inl (by decide))
     (by decide)⟩

/-- C5: ldexp (and scalbn/scalbln, which add a radix-2 requirement) fails
whenever the shift magnitude exceeds twice the format's exponent range,
for any first argument; the fold is further rejected if signaling NaNs are
honored and the base is a signaling NaN (unless unsafe-math), if the
shifted result is infinite, or if truncating the shifted result to the
target format changes its value — and the load-exponent handler fails in
exactly those cases (with the bound taken inclusively). -/
theorem C5_ldexp_bound :
    ∀ (rl : RealValue → Int → RealValue)
      (rvt : real_format → RealValue → RealValue)
      (rpowi : real_format → RealValue → Int → RealValue × Bool)
      (flags : NumericSafetyFlags) (a0 : RealValue) (n : Int) (fmt : real_format),
      (fold_const_call_sss_ri rl rvt rpowi CFNri.ldexp a0 n fmt flags
          = fold_const_builtin_load_exponent rl rvt flags a0 n fmt)
      ∧ (fmt.b = 2 →
          fold_const_call_sss_ri rl rvt rpowi CFNri.scalbn a0 n fmt flags
            = fold_const_builtin_load_exponent rl rvt flags a0 n fmt
          ∧ fold_const_call_sss_ri rl rvt rpowi CFNri.scalbln a0 n fmt flags
            = fold_const_builtin_load_exponent rl rvt flags a0 n fmt)
      ∧ (2 * |fmt.emax - fmt.emin| < |n| →
          fold_const_builtin_load_exponent rl rvt flags a0 n fmt = none
          ∧ fold_const_call_sss_ri rl rvt rpowi CFNri.ldexp a0 n fmt flags = none
          ∧ fold_const_call_sss_ri rl rvt rpowi CFNri.scalbn a0 n fmt flags = none
          ∧ fold_const_call_sss_ri rl rvt rpowi CFNri.scalbln a0 n fmt flags = none)
      ∧ (flags.fastmath = false ∧ flags.signaling_nans = true
            ∧ real_issignaling_nan a0 = true →
          fold_const_builtin_load_exponent rl rvt flags a0 n fmt = none)
      ∧ (real_isinf (rl a0 n) = true →
          fold_const_builtin_load_exponent rl rvt flags a0 n fmt = none)
      ∧ (real_equal (rl a0 n) (rvt fmt (rl a0 n)) = false →
          fold_const_builtin_load_exponent rl rvt flags a0 n fmt = none)
      ∧ (fold_const_builtin_load_exponent rl rvt flags a0 n fmt = none
          ↔ (n ≤ -(2 * |fmt.emax - fmt.emin|) ∨ 2 * |fmt.emax - fmt.emin| ≤ n
             ∨ (flags.fastmath = false ∧ flags.signaling_nans = true
                ∧ real_issignaling_nan a0 = true)
             ∨ real_isinf (rl a0 n) = true
             ∨ real_equal (rl a0 n) (rvt fmt (rl a0 n)) = false)) := by
  intro rl rvt rpowi flags a0 n fmt
  have hiff : fold_const_builtin_load_exponent rl rvt flags a0 n fmt = none
      ↔ (n ≤ -(2 * |fmt.emax - fmt.emin|) ∨ 2 * |fmt.emax - fmt.emin| ≤ n
         ∨ (flags.fastmath = false ∧ flags.signaling_nans = true
            ∧ real_issignaling_nan a0 = true)
         ∨ real_isinf (rl a0 n) = true
         ∨ real_equal (rl a0 n) (rvt fmt (rl a0 n)) = false) := by
    unfold fold_const_builtin_load_exponent
    split_ifs with h1 h2 h3 h4
    · simp only [true_iff]
      rcases h1 with h1 | h1
      · exact Or.inl h1
      · exact Or.inr (Or.inl h1)
    · simp only [true_iff]
      exact Or.inr (Or.inr (Or.inl h2))
    · simp only [true_iff]
      exact Or.inr (Or.inr (Or.inr (Or.inl h3)))
    · constructor
      · intro habs
        exact absurd habs (by simp)
      · rintro (hc | hc | hc | hc | hc)
        · exact absurd (Or.inl hc) h1
        · exact absurd (Or.inr hc) h1
        · exact absurd hc h2
        · exact absurd hc h3
        · rw [h4] at hc
          exact Bool.noConfusion hc
    · simp only [true_iff, Bool.not_eq_true] at h4 ⊢
      exact Or.inr (Or.inr (Or.inr (Or.inr h4)))
  have hbound : 2 * |fmt.emax - fmt.emin| < |n| →
      fold_const_builtin_load_exponent rl rvt flags a0 n fmt = none := by
    intro h
    apply hiff.mpr
    rcases abs_cases n with ⟨he, _⟩ | ⟨he, _⟩
    · rw [he] at h
      exact Or.inr (Or.inl (le_of_lt h))
    · rw [he] at h
      exact Or.inl (by omega)
  refine ⟨rfl, ?_, ?_, ?_, ?_, ?_, hiff⟩
  · intro hb
    constructor <;> simp [fold_const_call_sss_ri, hb]
  · intro h
    refine ⟨hbound h, ?_, ?_, ?_⟩
    · simpa [fold_const_call_sss_ri] using hbound h
    · by_cases hb : fmt.b = 2 <;> simp [fold_const_call_sss_ri, hb, hbound h]
    · by_cases hb : fmt.b = 2 <;> simp [fold_const_call_sss_ri, hb, hbound h]
  · intro h
    exact hiff.mpr (Or.inr (Or.inr (Or.inl h)))
  · intro h
    exact hiff.mpr (Or.inr (Or.inr (Or.inr (Or.inl h))))
  · intro h
    exact hiff.mpr (Or.inr (Or.inr (Or.inr (Or.inr h))))

/-- Witness for C5: a shift of 100000 exceeds twice binary64's exponent
range and is rejected for an arbitrary concrete base. -/
theorem C5_ldexp_bound_witness :
    2 * |fmt64.emax - fmt64.emin| < |(100000 : Int)|
    ∧ fold_const_builtin_load_exponent (fun a _ => a) conv_id flags0 dconst1 100000 fmt64
        = none :=
  ⟨by decide,
   ((C5_ldexp_bound (fun a _ => a) conv_id powi_exact flags0 dconst1 100000
     fmt64).2.2.1 (by decide)).1⟩

/-- Reducing a representable value into its type is the identity. -/
theorem ity_wrap_of_inRange {t : IntTy} {v : Int} (hp : 0 < t.prec)
    (h : ity_inRange t v = true) : ity_wrap t v = v := by
  unfold ity_inRange ity_min ity_max at h
  unfold ity_wrap
  simp only [decide_eq_true_eq] at h
  have h2 : ((2 ^ t.prec : ℕ) : Int) = 2 ^ t.prec := by push_cast; ring
  cases ht : t.uns
  · simp only [ht, Bool.false_eq_true, if_false] at h ⊢
    rw [h2]
    have hpow : (2 : Int) ^ t.prec = 2 * 2 ^ (t.prec - 1) := by
      conv_lhs => rw [show t.prec = (t.prec - 1) + 1 from (Nat.succ_pred_eq_of_pos hp).symm]
      ring
    have hb1 : (0 : Int) ≤ v + 2 ^ (t.prec - 1) := by omega
    have hb2 : v + 2 ^ (t.prec - 1) < 2 ^ t.prec := by omega
    rw [Int.emod_eq_of_lt hb1 hb2]
    omega
  · simp only [ht, if_true] at h ⊢
    rw [h2]
    have hpos : (0 : Int) < 2 ^ t.prec := by positivity
    exact Int.emod_eq_of_lt h.1 (by omega)

/-- C4: the overflow-checked add/sub/mul family (complex result type)
never fails: for representable operands of the nominal element type it
always folds to the pair (exact result reduced to the nominal width,
overflow flag true iff the exact result does not fit); the trap-oriented
UBSAN variants (scalar result type) fail exactly when overflow is
detected.  In particular 8-bit unsigned 200+100 folds to (44, true) and
10+20 to (30, false). -/
theorem C4_overflow_arith :
    (∀ (op : ArithOp) (ity : IntTy) (a0 a1 : Int),
        (fold_arith_overflow OvfKind.checked op ity a0 a1).isSome = true)
    ∧ (∀ (op : ArithOp) (ity : IntTy) (a0 a1 : Int),
        0 < ity.prec → ity_inRange ity a0 = true → ity_inRange ity a1 = true →
        fold_arith_overflow OvfKind.checked op ity a0 a1
          = some (OvfRes.cpx (ity_wrap ity (arith_apply op a0 a1))
              (!(ity_inRange ity (arith_apply op a0 a1)))))
    ∧ (∀ (op : ArithOp) (ity : IntTy) (a0 a1 : Int),
        fold_arith_overflow OvfKind.trap op ity a0 a1 = none
          ↔ arith_overflowed_p op ity a0 a1 = true)
    ∧ fold_arith_overflow OvfKind.checked ArithOp.add ⟨8, true⟩ 200 100
        = some (OvfRes.cpx 44 true)
    ∧ fold_arith_overflow OvfKind.checked ArithOp.add ⟨8, true⟩ 10 20
        = some (OvfRes.cpx 30 false) := by
  refine ⟨?_, ?_, ?_, by decide, by decide⟩
  · intro op ity a0 a1
    rfl
  · intro op ity a0 a1 hp h0 h1
    simp only [fold_arith_overflow, int_const_binop, arith_overflowed_p,
      ity_wrap_of_inRange hp h0, ity_wrap_of_inRange hp h1]
  · intro op ity a0 a1
    by_cases hov : arith_overflowed_p op ity a0 a1 = true
    · simp [fold_arith_overflow, hov]
    · simp only [Bool.not_eq_true] at hov
      simp [fold_arith_overflow, hov]

/-- Witness for C4: the checked fold at unsigned 8-bit 200 + 100, with
its representability hypotheses discharged concretely. -/
theorem C4_overflow_arith_witness :
    (0 < (8 : Nat) ∧ ity_inRange ⟨8, true⟩ 200 = true ∧ ity_inRange ⟨8, true⟩ 100 = true)
    ∧ fold_arith_overflow OvfKind.checked ArithOp.add ⟨8, true⟩ 200 100
        = some (OvfRes.cpx (ity_wrap ⟨8, true⟩ (arith_apply ArithOp.add 200 100))
            (!(ity_inRange ⟨8, true⟩ (arith_apply ArithOp.add 200 100)))) :=
  ⟨⟨by decide, by decide, by decide⟩,
   C4_overflow_arith.2.1 ArithOp.add ⟨8, true⟩ 200 100 (by decide) (by decide) (by decide)⟩

/-- The scan-from-the-top count agrees with the logarithmic
characterization: for a nonzero W-bit value, count + bit-length = W. -/
theorem clz_scan_log2 (v : Nat) : ∀ w : Nat, v ≠ 0 → v < 2 ^ w →
    clz_scan v w + (Nat.log2 v + 1) = w := by
  intro w
  induction w with
  | zero =>
    intro h0 hlt
    simp at hlt
    omega
  | succ k ih =>
    intro h0 hlt
    by_cases hb : v.testBit k
    · have hdm : v / 2 ^ k % 2 = 1 := by
        have := Nat.testBit_to_div_mod (x := v) (i := k)
        rw [hb] at this
        exact of_decide_eq_true this.symm
      have hge : 2 ^ k ≤ v := by
        rcases Nat.lt_or_ge v (2 ^ k) with hc | hc
        · rw [Nat.div_eq_of_lt hc] at hdm
          simp at hdm
        · exact hc
      have hlog : Nat.log2 v = k := by
        have hle : k ≤ Nat.log2 v := (Nat.le_log2 h0).mpr hge
        have hgt : Nat.log2 v < k + 1 := (Nat.log2_lt h0).mpr hlt
        omega
      simp [clz_scan, hb, hlog]
    · have hlt2 : v < 2 ^ k := by
        rcases Nat.lt_or_ge v (2 ^ k) with hc | hc
        · exact hc
        · exfalso
          have hdiv : v / 2 ^ k = 1 := by
            apply Nat.div_eq_of_lt_le
            · simpa using hc
            · have hp2 : 2 ^ (k + 1) = 2 * 2 ^ k := by ring
              omega
          have := Nat.testBit_to_div_mod (x := v) (i := k)
          rw [hdiv] at this
          simp at this
          exact hb this
      have hrec := ih h0 hlt2
      simp only [clz_scan, hb, Bool.false_eq_true, if_false]
      omega

/-- The scan-from-the-bottom count finds the exact power of two dividing a
nonzero W-bit value. -/
theorem ctz_scan_dvd : ∀ (fuel v : Nat), v ≠ 0 → v < 2 ^ fuel →
    2 ^ ctz_scan fuel v ∣ v ∧ ¬ 2 ^ (ctz_scan fuel v + 1) ∣ v := by
  intro fuel
  induction fuel with
  | zero =>
    intro v h0 hlt
    simp at hlt
    omega
  | succ k ih =>
    intro v h0 hlt
    by_cases hodd : v % 2 = 1
    · have hr : ctz_scan (k + 1) v = 0 := by simp [ctz_scan, hodd]
      rw [hr]
      exact ⟨by simp, by omega⟩
    · have heven : v % 2 = 0 := by omega
      have hv2 : v / 2 ≠ 0 := by omega
      have hv2lt : v / 2 < 2 ^ k := by
        have hp : 2 ^ (k + 1) = 2 ^ k * 2 := by ring
        omega
      obtain ⟨hd, hnd⟩ := ih (v / 2) hv2 hv2lt
      have hr : ctz_scan (k + 1) v = ctz_scan k (v / 2) + 1 := by simp [ctz_scan, hodd]
      rw [hr]
      generalize hgc : ctz_scan k (v / 2) = c at hd hnd
      constructor
      · obtain ⟨w, hw⟩ := hd
        refine ⟨w, ?_⟩
        calc v = 2 * (v / 2) := by omega
          _ = 2 * (2 ^ c * w) := by rw [hw]
          _ = 2 ^ (c + 1) * w := by ring
      · intro hcon
        apply hnd
        obtain ⟨w, hw⟩ := hcon
        refine ⟨w, ?_⟩
        have hw2 : v = 2 * (2 ^ (c + 1) * w) := by
          rw [hw]
          ring
        rw [hw2, Nat.mul_div_cancel_left _ (by norm_num)]

/-- Building a nonnegative value that fits the result precision with
wi::shwi stores exactly that value. -/
theorem wi_shwi_of_lt {t : Nat} {w : Nat} (h : t < 2 ^ w) :
    wi_shwi ((t : Nat) : Int) w = t := by
  unfold wi_shwi
  have h2 : ((2 ^ w : ℕ) : Int) = 2 ^ w := by push_cast; ring
  rw [h2]
  have hlt : ((t : Nat) : Int) < 2 ^ w := by exact_mod_cast h
  rw [Int.emod_eq_of_lt (by positivity) hlt]
  simp

/-- C6: clz and ctz always fold.  On a nonzero argument the result is the
leading- or trailing-zero count, which satisfies the reference bit
characterizations (count plus bit-length equals the width for clz; the
exact dividing power of two for ctz).  On zero, the two-operand generic
form returns the caller-supplied second argument, and the one-operand
forms return the target's defined-at-zero value when one exists and the
argument type's bit width otherwise, a _BitInt argument always using the
bit width. -/
theorem C6_clz_ctz_fold :
    ∀ (clz_zero ctz_zero : Option Int) (aty : arg_type_info)
      (v : Nat) (prec : Nat) (arg1 : Nat) (a1w : Nat),
      ((fold_const_call_ss_i clz_zero ctz_zero CFNint.clz v prec aty).isSome = true
       ∧ (fold_const_call_ss_i clz_zero ctz_zero CFNint.ctz v prec aty).isSome = true
       ∧ (fold_const_call_sss_ii CFNint.clz v aty.precision arg1 a1w prec).isSome = true
       ∧ (fold_const_call_sss_ii CFNint.ctz v aty.precision arg1 a1w prec).isSome = true)
      ∧ (v ≠ 0 → v < 2 ^ aty.precision →
          fold_const_call_ss_i clz_zero ctz_zero CFNint.clz v prec aty
            = some (wi_shwi ((wi_clz aty.precision v : Nat) : Int) prec)
          ∧ fold_const_call_ss_i clz_zero ctz_zero CFNint.ctz v prec aty
            = some (wi_shwi ((wi_ctz aty.precision v : Nat) : Int) prec)
          ∧ fold_const_call_sss_ii CFNint.clz v aty.precision arg1 a1w prec
            = some (wi_shwi ((wi_clz aty.precision v : Nat) : Int) prec)
          ∧ fold_const_call_sss_ii CFNint.ctz v aty.precision arg1 a1w prec
            = some (wi_shwi ((wi_ctz aty.precision v : Nat) : Int) prec)
          ∧ wi_clz aty.precision v + (Nat.log2 v + 1) = aty.precision
          ∧ 2 ^ wi_ctz aty.precision v ∣ v
          ∧ ¬ 2 ^ (wi_ctz aty.precision v + 1) ∣ v)
      ∧ (v = 0 →
          fold_const_call_sss_ii CFNint.clz v aty.precision arg1 a1w prec
            = some (wi_shwi (sint a1w arg1) prec)
          ∧ fold_const_call_sss_ii CFNint.ctz v aty.precision arg1 a1w prec
            = some (wi_shwi (sint a1w arg1) prec)
          ∧ (aty.isBitInt = true →
              fold_const_call_ss_i clz_zero ctz_zero CFNint.clz v prec aty
                = some (wi_shwi ((aty.precision : Nat) : Int) prec)
              ∧ fold_const_call_ss_i clz_zero ctz_zero CFNint.ctz v prec aty
                = some (wi_shwi ((aty.precision : Nat) : Int) prec))
          ∧ (aty.isBitInt = false →
              fold_const_call_ss_i clz_zero ctz_zero CFNint.clz v prec aty
                = some (wi_shwi (clz_zero.getD ((aty.precision : Nat) : Int)) prec)
              ∧ fold_const_call_ss_i clz_zero ctz_zero CFNint.ctz v prec aty
                = some (wi_shwi (ctz_zero.getD ((aty.precision : Nat) : Int)) prec)))
      ∧ (∀ t : Nat, t < 2 ^ prec → wi_shwi ((t : Nat) : Int) prec = t) := by
  intro clz_zero ctz_zero aty v prec arg1 a1w
  refine ⟨⟨rfl, rfl, rfl, rfl⟩, ?_, ?_, fun t ht => wi_shwi_of_lt ht⟩
  · intro h0 hlt
    refine ⟨?_, ?_, ?_, ?_, ?_, ?_⟩
    · simp [fold_const_call_ss_i, h0]
    · simp [fold_const_call_ss_i, h0]
    · simp [fold_const_call_sss_ii, h0]
    · simp [fold_const_call_sss_ii, h0]
    · simpa [wi_clz] using clz_scan_log2 v aty.precision h0 hlt
    · simpa [wi_ctz] using ctz_scan_dvd aty.precision v h0 hlt
  · intro h0
    subst h0
    refine ⟨by simp [fold_const_call_sss_ii], by simp [fold_const_call_sss_ii], ?_, ?_⟩
    · intro hb
      constructor <;> simp [fold_const_call_ss_i, hb]
    · intro hb
      cases hz : clz_zero <;> cases hz2 : ctz_zero <;>
        simp [fold_const_call_ss_i, hb, hz, hz2, Option.getD]

/-- Witness for C6: the nonzero case at a concrete 16-bit argument. -/
theorem C6_clz_ctz_fold_witness :
    ((8 : Nat) ≠ 0 ∧ (8 : Nat) < 2 ^ (16 : Nat))
    ∧ fold_const_call_ss_i none none CFNint.clz 8 32 ⟨false, 16⟩
        = some (wi_shwi ((wi_clz 16 8 : Nat) : Int) 32)
    ∧ wi_clz 16 8 + (Nat.log2 8 + 1) = 16 :=
  ⟨⟨by decide, by decide⟩,
   ((C6_clz_ctz_fold none none ⟨false, 16⟩ 8 32 0 32).2.1 (by decide) (by decide)).1,
   (((C6_clz_ctz_fold none none ⟨false, 16⟩ 8 32 0 32).2.1 (by decide)
     (by decide)).2.2.2.2.1)⟩

/-- C8: every bounded-length string/memory operation given a constant
bound of zero folds to the integer constant 0 (a null result for memchr)
regardless of the operands' contents, provided neither operand carries an
observable side effect; when either operand has a side effect, the
zero-bound call is not folded (side-effecting operands have no statically
known content, per the spec). -/
theorem C8_zero_bound_fold :
    ∀ (a0 a1 : StrArg) (ac : CharArg),
      strarg_pure a0 → strarg_pure a1 → chararg_pure ac →
      (a0.se = false ∧ a1.se = false →
        fold_const_call_strncmp a0 a1 (some 0) = some 0
        ∧ fold_const_call_strncasecmp a0 a1 (some 0) = some 0
        ∧ fold_const_call_memcmp a0 a1 (some 0) = some 0)
      ∧ (a0.se = false ∧ ac.se = false →
        fold_const_call_memchr a0 ac (some 0) = some MemchrRes.null)
      ∧ (a0.se = true ∨ a1.se = true →
        fold_const_call_strncmp a0 a1 (some 0) = none
        ∧ fold_const_call_strncasecmp a0 a1 (some 0) = none
        ∧ fold_const_call_memcmp a0 a1 (some 0) = none)
      ∧ (a0.se = true ∨ ac.se = true →
        fold_const_call_memchr a0 ac (some 0) = none) := by
  intro a0 a1 ac hp0 hp1 hpc
  refine ⟨?_, ?_, ?_, ?_⟩
  · rintro ⟨h0, h1⟩
    refine ⟨?_, ?_, ?_⟩ <;>
      simp [fold_const_call_strncmp, fold_const_call_strncasecmp,
        fold_const_call_memcmp, h0, h1]
  · rintro ⟨h0, hc⟩
    simp [fold_const_call_memchr, h0, hc]
  · intro h
    rcases h with h | h
    · obtain ⟨hs, hbts⟩ := hp0 h
      refine ⟨?_, ?_, ?_⟩ <;>
        simp [fold_const_call_strncmp, fold_const_call_strncasecmp,
          fold_const_call_memcmp, h, hs, hbts]
    · obtain ⟨hs, hbts⟩ := hp1 h
      refine ⟨?_, ?_, ?_⟩ <;>
        [cases hx : a0.str; cases hx : a0.str; cases hx : a0.bytes] <;>
        simp [fold_const_call_strncmp, fold_const_call_strncasecmp,
          fold_const_call_memcmp, h, hs, hbts, hx]
  · intro h
    rcases h with h | h
    · obtain ⟨hs, hbts⟩ := hp0 h
      simp [fold_const_call_memchr, h, hbts]
    · have hc := hpc h
      cases hx : a0.bytes <;> simp [fold_const_call_memchr, h, hc, hx]

/-- A concrete pure literal operand, content "hi". -/
def strlit_hi : StrArg := ⟨false, some [104, 105], some [104, 105]⟩

/-- A concrete pure literal operand with distinct content "ho". -/
def strlit_ho : StrArg := ⟨false, some [104, 111], some [104, 111]⟩

/-- A concrete pure constant character operand. -/
def charlit_h : CharArg := ⟨false, some 104⟩

/-- Witness for C8: two distinct literal buffers with bound 0 fold to 0. -/
theorem C8_zero_bound_fold_witness :
    (strlit_hi.se = false ∧ strlit_ho.se = false)
    ∧ fold_const_call_strncmp strlit_hi strlit_ho (some 0) = some 0
    ∧ fold_const_call_memcmp strlit_hi strlit_ho (some 0) = some 0 := by
  have h := (C8_zero_bound_fold strlit_hi strlit_ho charlit_h
    (fun hse => Bool.noConfusion hse) (fun hse => Bool.noConfusion hse)
    (fun hse => Bool.noConfusion hse)).1 ⟨by decide, by decide⟩
  exact ⟨⟨by decide, by decide⟩, h.1, h.2.2⟩

end FoldConstCall
